import Mathlib

/-!
Shallow embedding of the background-image optimizer core:
src/utils/imageProcessor.ts, src/utils/fileTypes.ts,
src/hooks/useImageOptimizer.ts and src/App.tsx.

Modelling conventions: JS numbers holding pixel counts and byte sizes are
Nat; fractional quantities (quality, durations) are Rat, with JS float
arithmetic idealized as exact rational arithmetic; JS Math.round is
Mathlib round (both compute the floor of x + 1/2).  Asynchronous code is
modelled by explicit state threading through deterministic dependency
records; a thrown JS Error is Except.error carrying the message string.
JS string primitives (toLowerCase, endsWith, startsWith) are modelled by
executable character-list functions so that concrete instances evaluate.
-/

/-- ASCII lowercasing of one character, as JS toLowerCase acts on the
ASCII names and media types appearing here. -/
def charToLower (c : Char) : Char :=
  if 65 ≤ c.toNat ∧ c.toNat ≤ 90 then Char.ofNat (c.toNat + 32) else c

/-- Models JS String.prototype.toLowerCase on ASCII strings. -/
def jsToLower (s : String) : String := ⟨s.data.map charToLower⟩

/-- Models JS String.prototype.endsWith. -/
def jsEndsWith (s suffix : String) : Bool := List.isSuffixOf suffix.data s.data

/-- Models JS String.prototype.startsWith. -/
def jsStartsWith (s pre : String) : Bool := List.isPrefixOf pre.data s.data

/-- An encoded byte payload (the DOM Blob fields the code reads). -/
structure Blob where
  size : Nat
  mediaType : String
deriving Repr, DecidableEq

/-- A file-like input: declared name, declared media type and byte length
(the DOM File fields the code reads). -/
structure File where
  name : String
  type : String
  size : Nat
deriving Repr, DecidableEq

/-- Embeds isHeicFile from src/utils/imageProcessor.ts (and the identical
copy in src/utils/fileTypes.ts): media-type equality checks or-ed with
case-insensitive extension checks on the lowercased name. -/
def isHeicFile (file : File) : Bool :=
  let lowerName := jsToLower file.name
  file.type == "image/heic" || file.type == "image/heif" ||
    jsEndsWith lowerName ".heic" || jsEndsWith lowerName ".heif"

/-- Embeds isSupportedImageFile from src/utils/fileTypes.ts; App.tsx
inlines the same gate in handleFileChange. -/
def isSupportedImageFile (file : File) : Bool :=
  jsStartsWith file.type "image/" || isHeicFile file

/-- Modelled from the spec: the classifier as the spec sentence words it,
for comparison with the source's isHeicFile (claim C4).  The extension
check only applies when the declared media type is absent or generic. -/
def isHeicFileSpec (file : File) : Bool :=
  file.type == "image/heic" || file.type == "image/heif" ||
    ((file.type == "" || file.type == "application/octet-stream") &&
      (jsEndsWith (jsToLower file.name) ".heic" ||
        jsEndsWith (jsToLower file.name) ".heif"))

/-- A decoded raster: the pixel source handle is opaque to the renderer,
only the decoded dimensions matter here (interface LoadedImage). -/
structure LoadedImage where
  width : Nat
  height : Nat
deriving Repr, DecidableEq

/-- Per-variant options (interface ImageVariantOptions). -/
structure ImageVariantOptions where
  width : Nat
  quality : ℚ
deriving Repr, DecidableEq

/-- Both variants' options (interface ImageProcessingOptions). -/
structure ImageProcessingOptions where
  desktop : ImageVariantOptions
  mobile : ImageVariantOptions
deriving Repr, DecidableEq

/-- The TS caller passes an optional object whose desktop and mobile
fields are each optional (the options parameter of processImage). -/
structure ImageProcessingOverrides where
  desktop : Option ImageVariantOptions := none
  mobile : Option ImageVariantOptions := none
deriving Repr, DecidableEq

/-- DEFAULT_OPTIONS from src/utils/imageProcessor.ts. -/
def DEFAULT_OPTIONS : ImageProcessingOptions :=
  { desktop := { width := 1920, quality := 4 / 5 },
    mobile := { width := 720, quality := 7 / 10 } }

/-- The spread-merge of overrides over DEFAULT_OPTIONS performed at the
top of processImage. -/
def mergeOptions (options : Option ImageProcessingOverrides) : ImageProcessingOptions :=
  { desktop := (options.bind (fun o => o.desktop)).getD DEFAULT_OPTIONS.desktop,
    mobile := (options.bind (fun o => o.mobile)).getD DEFAULT_OPTIONS.mobile }

/-- One rendered output (interface OptimizedVariant). -/
structure OptimizedVariant where
  blob : Blob
  width : Nat
  height : Nat
  size : Nat
  quality : ℚ
deriving Repr, DecidableEq

/-- The original sub-record of OptimizedImages. -/
structure OriginalInfo where
  width : Nat
  height : Nat
  size : Nat
  name : String
  type : String
deriving Repr, DecidableEq

/-- The full report (interface OptimizedImages). -/
structure OptimizedImages where
  desktop : OptimizedVariant
  mobile : OptimizedVariant
  original : OriginalInfo
  durationMs : ℚ
deriving Repr, DecidableEq

/-- Injected dependencies (interface ImageProcessorDeps), threaded through
an explicit dependency state of type sigma so that stateful test doubles —
like the call-counting and canvas-recording deps of the test suite — are
expressible.  contextAvailable models canvas.getContext returning a
context rather than null; toBlob models sizing the canvas to the given
width and height, drawing, and canvas.toBlob delivering an encoded blob
(none models the null blob, which the code turns into an encoding error);
nowMs models performance.now read on the current dependency state. -/
structure ImageProcessorDeps (σ : Type) where
  loadImage : σ → File → Except String LoadedImage × σ
  contextAvailable : Bool
  toBlob : σ → Nat → Nat → ℚ → Option Blob × σ
  nowMs : σ → ℚ

/-- clampedWidth local of renderVariant: Math.min(sourceWidth, targetWidth). -/
def clampedWidth (sourceWidth targetWidth : Nat) : Nat :=
  min sourceWidth targetWidth

/-- scale local of renderVariant: clampedWidth / sourceWidth. -/
def scaleFor (sourceWidth targetWidth : Nat) : ℚ :=
  (clampedWidth sourceWidth targetWidth : ℚ) / (sourceWidth : ℚ)

/-- scaledHeight local of renderVariant:
Math.round(sourceHeight * scale). -/
def scaledHeight (sourceWidth sourceHeight targetWidth : Nat) : Nat :=
  (round ((sourceHeight : ℚ) * scaleFor sourceWidth targetWidth)).toNat

/-- Embeds renderVariant from src/utils/imageProcessor.ts: reject zero
dimensions, clamp the width, scale the height, require a canvas context,
encode via toBlob (null blob rejects with the WebP failure message), and
return the variant whose size is the encoded blob's size. -/
def renderVariant {σ : Type} (image : LoadedImage) (targetWidth : Nat) (quality : ℚ)
    (deps : ImageProcessorDeps σ) (s : σ) : Except String OptimizedVariant × σ :=
  if image.width = 0 ∨ image.height = 0 then
    (Except.error "Source image has invalid dimensions.", s)
  else
    let w := clampedWidth image.width targetWidth
    let h := scaledHeight image.width image.height targetWidth
    if deps.contextAvailable then
      match deps.toBlob s w h quality with
      | (some blob, s') =>
          (Except.ok { blob := blob, width := w, height := h,
                       size := blob.size, quality := quality }, s')
      | (none, s') => (Except.error "WebP conversion failed.", s')
    else
      (Except.error "Canvas context is unavailable.", s)

/-- Embeds processImage from src/utils/imageProcessor.ts (the current,
Promise.all revision).  With deterministic synchronous dependencies the
two renders created by Promise.all run their effects in creation order —
desktop first, then mobile — and both run even if the first rejects;
Promise.all then rejects with the earliest rejection, here desktop's. -/
def processImage {σ : Type} (file : File) (options : Option ImageProcessingOverrides)
    (deps : ImageProcessorDeps σ) (s0 : σ) : Except String OptimizedImages × σ :=
  let merged := mergeOptions options
  match deps.loadImage s0 file with
  | (Except.error e, s1) => (Except.error e, s1)
  | (Except.ok image, s1) =>
    match renderVariant image merged.desktop.width merged.desktop.quality deps s1 with
    | (dres, s2) =>
      match renderVariant image merged.mobile.width merged.mobile.quality deps s2 with
      | (mres, s3) =>
        match dres, mres with
        | Except.ok desktop, Except.ok mobile =>
            (Except.ok
              { desktop := desktop, mobile := mobile,
                original := { width := image.width, height := image.height,
                              size := file.size, name := file.name, type := file.type },
                durationMs := deps.nowMs s3 - deps.nowMs s0 }, s3)
        | Except.error e, _ => (Except.error e, s3)
        | _, Except.error e => (Except.error e, s3)

/-- Embeds the sequential revision of processImage kept alongside the
tests: identical pipeline but the desktop variant is awaited before the
mobile render begins, so a desktop failure returns before any mobile
work. -/
def processImageSeq {σ : Type} (file : File) (options : Option ImageProcessingOverrides)
    (deps : ImageProcessorDeps σ) (s0 : σ) : Except String OptimizedImages × σ :=
  let merged := mergeOptions options
  match deps.loadImage s0 file with
  | (Except.error e, s1) => (Except.error e, s1)
  | (Except.ok image, s1) =>
    match renderVariant image merged.desktop.width merged.desktop.quality deps s1 with
    | (Except.error e, s2) => (Except.error e, s2)
    | (Except.ok desktop, s2) =>
      match renderVariant image merged.mobile.width merged.mobile.quality deps s2 with
      | (Except.error e, s3) => (Except.error e, s3)
      | (Except.ok mobile, s3) =>
          (Except.ok
            { desktop := desktop, mobile := mobile,
              original := { width := image.width, height := image.height,
                            size := file.size, name := file.name, type := file.type },
              durationMs := deps.nowMs s3 - deps.nowMs s0 }, s3)

/-- Agreement of two pipeline outcomes up to the measured durationMs:
same failure message, or same desktop variant, mobile variant and
original metadata. -/
def reportsMatch : Except String OptimizedImages → Except String OptimizedImages → Prop
  | Except.ok a, Except.ok b =>
      a.desktop = b.desktop ∧ a.mobile = b.mobile ∧ a.original = b.original
  | Except.error ea, Except.error eb => ea = eb
  | _, _ => False

/-- The converter function result type: heic2any resolves with one blob
or an array of blobs. -/
inductive HeicConvertResult
  | single (blob : Blob)
  | multiple (blobs : List Blob)
deriving Repr, DecidableEq

/-- Embeds convertHeicToBlob from src/utils/imageProcessor.ts, applied to
the awaited converter result: an array takes its first element and an
empty array (no first result) throws the conversion failure; a single
blob is returned as is. -/
def convertHeicToBlob (result : HeicConvertResult) : Except String Blob :=
  match result with
  | HeicConvertResult.single blob => Except.ok blob
  | HeicConvertResult.multiple blobs =>
    match blobs with
    | [] => Except.error "HEIC conversion failed."
    | first :: _ => Except.ok first

/-- The module-level mutable cache heicConverterPromise together with a
count of how many dynamic imports of heic2any have been triggered.  The
converter value itself is abstract (type alpha). -/
structure HeicConverterCache (α : Type) where
  heicConverterPromise : Option α
  loads : Nat
deriving Repr, DecidableEq

/-- The cache at module initialization: heicConverterPromise = null, no
load triggered yet. -/
def initialHeicCache (α : Type) : HeicConverterCache α :=
  { heicConverterPromise := none, loads := 0 }

/-- Embeds loadHeicConverter from src/utils/imageProcessor.ts: on a null
cache trigger the dynamic import (importHeic2any, indexed by how many
imports ran before, so distinct loads are distinguishable) and store the
resulting promise; otherwise return the cached promise unchanged. -/
def loadHeicConverter {α : Type} (importHeic2any : Nat → α)
    (s : HeicConverterCache α) : α × HeicConverterCache α :=
  match s.heicConverterPromise with
  | some cached => (cached, s)
  | none =>
    let loaded := importHeic2any s.loads
    (loaded, { heicConverterPromise := some loaded, loads := s.loads + 1 })

/-- A sequence of n successive loadHeicConverter calls (JS is single
threaded, so concurrent callers interleave as some sequential order),
returning every caller's converter and the final cache. -/
def loadHeicConverterCalls {α : Type} (importHeic2any : Nat → α) :
    Nat → HeicConverterCache α → List α × HeicConverterCache α
  | 0, s => ([], s)
  | n + 1, s =>
    let r := loadHeicConverter importHeic2any s
    let rest := loadHeicConverterCalls importHeic2any n r.2
    (r.1 :: rest.1, rest.2)

/-- Status union of the optimizer state. -/
inductive OptimizerStatus
  | idle
  | processing
  | ready
  | error
deriving Repr, DecidableEq

/-- One history entry (interface ProcessingLogEntry). -/
structure ProcessingLogEntry where
  id : String
  fileName : String
  fileSize : Nat
  durationMs : ℚ
  desktopSize : Nat
  mobileSize : Nat
  timestamp : Nat
deriving Repr, DecidableEq

/-- Object URLs for the two rendered blobs (interface PreviewUrls). -/
structure PreviewUrls where
  desktop : String
  mobile : String
deriving Repr, DecidableEq

/-- maxLogEntries from src/hooks/useImageOptimizer.ts; App.tsx uses the
literal 20 in the same position. -/
def maxLogEntries : Nat := 20

/-- Embeds the log append performed on success in both App.tsx and the
hook: setLogs(current => [entry, ...current].slice(0, maxLogEntries)). -/
def appendLogEntry (entry : ProcessingLogEntry) (logs : List ProcessingLogEntry) :
    List ProcessingLogEntry :=
  (entry :: logs).take maxLogEntries

/-- The shared mutable state of the optimizer UI: the displayed report,
preview URLs, status, surfaced error, history log, and the request
counter requestIdRef. -/
structure OptimizerState where
  optimized : Option OptimizedImages
  previewUrls : Option PreviewUrls
  status : OptimizerStatus
  errorMessage : Option String
  logs : List ProcessingLogEntry
  requestId : Nat
deriving Repr, DecidableEq

/-- Browser environment values a completed request reads: createObjectURL
for each blob, the fresh log id (crypto.randomUUID) and Date.now. -/
structure HookEnv where
  createObjectURL : Blob → String
  newLogId : String
  now : Nat

/-- Embeds the issuing prefix of handleFileSelection: bump requestIdRef,
capture the new value as this request's token, set the processing status
and clear the error message. -/
def issueRequest (s : OptimizerState) : OptimizerState × Nat :=
  let requestId := s.requestId + 1
  ({ s with requestId := requestId, status := OptimizerStatus.processing,
            errorMessage := none }, requestId)

/-- The log entry built on success from the selected file and the report. -/
def makeLogEntry (env : HookEnv) (file : File) (processed : OptimizedImages) :
    ProcessingLogEntry :=
  { id := env.newLogId, fileName := file.name, fileSize := file.size,
    durationMs := processed.durationMs, desktopSize := processed.desktop.size,
    mobileSize := processed.mobile.size, timestamp := env.now }

/-- The state update a completing request performs once past the token
guard: on success install the report, the preview URLs and the ready
status and append the log entry; on failure surface the message with the
error status. -/
def applyOutcome (env : HookEnv) (file : File)
    (outcome : Except String OptimizedImages) (s : OptimizerState) : OptimizerState :=
  match outcome with
  | Except.ok processed =>
    { s with optimized := some processed,
             previewUrls := some
               { desktop := env.createObjectURL processed.desktop.blob,
                 mobile := env.createObjectURL processed.mobile.blob },
             status := OptimizerStatus.ready,
             logs := appendLogEntry (makeLogEntry env file processed) s.logs }
  | Except.error message =>
    { s with errorMessage := some message, status := OptimizerStatus.error }

/-- Embeds the completion suffix of handleFileSelection (both the try and
the catch branch): if requestIdRef no longer equals this request's token
the outcome is dropped wholesale, otherwise it is applied. -/
def completeRequest (env : HookEnv) (file : File) (requestId : Nat)
    (outcome : Except String OptimizedImages) (s : OptimizerState) : OptimizerState :=
  if s.requestId ≠ requestId then s else applyOutcome env file outcome s

/-- The unsupported-file message set by the gate in App.tsx and the hook. -/
def unsupportedFileMessage : String :=
  "Unsupported file type. Please choose an image file."

/-- Embeds handleFileSelection from src/hooks/useImageOptimizer.ts (and
the identical handleFileChange body in App.tsx) for one uninterleaved
request: gate on isSupportedImageFile (on failure only the error message
and status change and processing never starts), then issue the request,
run processImage with the injected deps, and complete. -/
def handleFileSelection {σ : Type} (deps : ImageProcessorDeps σ) (env : HookEnv)
    (file : File) (s : OptimizerState) (st : σ) : OptimizerState × σ :=
  if isSupportedImageFile file then
    let issued := issueRequest s
    let r := processImage file none deps st
    (completeRequest env file issued.2 r.1 issued.1, r.2)
  else
    ({ s with errorMessage := some unsupportedFileMessage,
              status := OptimizerStatus.error }, st)

/-- A parsed JSON value, the possible results of JSON.parse. -/
inductive Json
  | null
  | bool (b : Bool)
  | num (q : ℚ)
  | str (s : String)
  | arr (elems : List Json)
  | obj (fields : List (String × Json))

/-- Whether a JSON value is an array (the Array.isArray check). -/
def Json.isArray : Json → Bool
  | Json.arr _ => true
  | _ => false

/-- The filter predicate of parseStoredLogs: the entry is an object (JSON
objects are never null here) carrying the fileName, durationMs and
timestamp keys. -/
def isValidLogEntry : Json → Bool
  | Json.obj fields =>
      fields.any (fun f => f.1 == "fileName") &&
      fields.any (fun f => f.1 == "durationMs") &&
      fields.any (fun f => f.1 == "timestamp")
  | _ => false

/-- Embeds parseStoredLogs from src/hooks/useImageOptimizer.ts.  JSON.parse
is the JS runtime's, modelled as an abstract total parse function where
none stands for a parse exception; a falsy stored value (null or the
empty string) yields the empty log, a parse failure or a non-array parse
yields the empty log, and an array keeps its well-formed entries in
order. -/
def parseStoredLogs (parse : String → Option Json) (value : Option String) :
    List Json :=
  match value with
  | none => []
  | some s =>
    if s.isEmpty then []
    else
      match parse s with
      | none => []
      | some (Json.arr elems) => elems.filter isValidLogEntry
      | some _ => []

/-- Embeds the logs useState initializer of App.tsx: a falsy stored value
or a parse exception yields the empty log, but any successfully parsed
value — array or not — is returned unchecked (the `as ProcessingLogEntry[]`
cast performs no runtime validation). -/
def appLogsInit (parse : String → Option Json) (stored : Option String) : Json :=
  match stored with
  | none => Json.arr []
  | some s =>
    if s.isEmpty then Json.arr []
    else
      match parse s with
      | none => Json.arr []
      | some parsed => parsed

/-- A concrete log entry family used to instantiate log-bound statements. -/
def sampleLogEntry (i : Nat) : ProcessingLogEntry :=
  { id := "", fileName := "sample.jpg", fileSize := i, durationMs := 0,
    desktopSize := 0, mobileSize := 0, timestamp := i }

/-- Twenty-five concrete log entries, appended oldest first. -/
def sampleLogEntries : List ProcessingLogEntry :=
  (List.range 25).map sampleLogEntry

/-- Concrete pure dependencies decoding a 4000 x 2000 raster and encoding
every canvas into a 5120-byte WebP blob. -/
def witnessDeps : ImageProcessorDeps Unit :=
  { loadImage := fun s _ => (Except.ok { width := 4000, height := 2000 }, s),
    contextAvailable := true,
    toBlob := fun s _ _ _ => (some { size := 5120, mediaType := "image/webp" }, s),
    nowMs := fun _ => 0 }

/-- Concrete dependencies whose state counts loadImage invocations, the
call-count double of the test suite. -/
def countingDeps : ImageProcessorDeps Nat :=
  { loadImage := fun n _ => (Except.error "decode invoked", n + 1),
    contextAvailable := true,
    toBlob := fun n _ _ _ => (some { size := 1, mediaType := "image/webp" }, n),
    nowMs := fun _ => 0 }

/-- A concrete browser environment. -/
def sampleEnv : HookEnv :=
  { createObjectURL := fun _ => "blob:preview", newLogId := "id-1", now := 0 }

/-- The unsupported input of the test suite: text/plain, name note.txt. -/
def noteTxt : File := { name := "note.txt", type := "text/plain", size := 5 }

/-- Another unsupported input: a PDF. -/
def reportPdf : File := { name := "report.pdf", type := "application/pdf", size := 9 }

/-- The idle initial optimizer state. -/
def idleState : OptimizerState :=
  { optimized := none, previewUrls := none, status := OptimizerStatus.idle,
    errorMessage := none, logs := [], requestId := 0 }

/-- A concrete well-formed persisted entry as JSON. -/
def sampleEntryJson : Json :=
  Json.obj [("fileName", Json.str "a.jpg"), ("durationMs", Json.num 3),
            ("timestamp", Json.num 9)]

/-- A concrete parse function: one recognised persisted string parses to a
one-entry array, everything else raises. -/
def sampleParse : String → Option Json := fun s =>
  if s = "[entry]" then some (Json.arr [sampleEntryJson]) else none

/-- Helper: truncating the right summand before appending does not change
a truncated append. -/
theorem take_append_take {α : Type} (a b : List α) (n : Nat) :
    (a ++ b.take n).take n = (a ++ b).take n := by
  rw [List.take_append_eq_append_take, List.take_append_eq_append_take,
    List.take_take, Nat.min_eq_left (Nat.sub_le _ _)]

/-- Helper: a nonempty fold of appendLogEntry is the truncated reversed
append, whatever the starting log. -/
theorem foldl_appendLogEntry (es : List ProcessingLogEntry) :
    ∀ (x : ProcessingLogEntry) (l0 : List ProcessingLogEntry),
      (x :: es).foldl (fun acc y => appendLogEntry y acc) l0
        = ((x :: es).reverse ++ l0).take maxLogEntries := by
  induction es with
  | nil =>
    intro x l0
    simp [appendLogEntry]
  | cons y es ih =>
    intro x l0
    have step : (x :: y :: es).foldl (fun acc z => appendLogEntry z acc) l0
        = (y :: es).foldl (fun acc z => appendLogEntry z acc) (appendLogEntry x l0) := by
      simp [List.foldl_cons]
    rw [step, ih y (appendLogEntry x l0), appendLogEntry, take_append_take]
    simp [List.append_assoc]

/-- Helper: applying an outcome never touches the request counter. -/
theorem applyOutcome_requestId (env : HookEnv) (file : File)
    (outcome : Except String OptimizedImages) (s : OptimizerState) :
    (applyOutcome env file outcome s).requestId = s.requestId := by
  cases outcome <;> rfl

/-- Helper: once the converter promise is cached, further call sequences
return the cached value and leave the cache untouched. -/
theorem loadHeicConverterCalls_cached {α : Type} (importHeic2any : Nat → α)
    (p : α) (k : Nat) :
    ∀ n, loadHeicConverterCalls importHeic2any n
        { heicConverterPromise := some p, loads := k }
      = (List.replicate n p, { heicConverterPromise := some p, loads := k }) := by
  intro n
  induction n with
  | zero => rfl
  | succ m ih =>
    simp [loadHeicConverterCalls, loadHeicConverter, ih, List.replicate_succ]

/-- C4: the claim states that a file whose declared media type is a concrete
non-HEIC type (text/plain) is not classified HEIC merely because of its
extension.  The source's isHeicFile classifies name "note.heic" with type
"text/plain" as HEIC, while the spec-worded classifier does not: the claim
as stated is false of the code. -/
theorem isHeicFile_type_override_counterexample :
    isHeicFile { name := "note.heic", type := "text/plain", size := 1 } = true ∧
    isHeicFileSpec { name := "note.heic", type := "text/plain", size := 1 } = false := by
  constructor
  · decide
  · decide

/-- C4 (amended): the classifier returns true iff the declared media type is
image/heic or image/heif, or the lowercased file name ends in .heic or
.heif — regardless of the declared media type; in particular a concrete
non-HEIC declared type does not suppress extension-based classification. -/
theorem isHeicFile_characterization (file : File) :
    isHeicFile file = true ↔
      (file.type = "image/heic" ∨ file.type = "image/heif" ∨
        jsEndsWith (jsToLower file.name) ".heic" = true ∨
        jsEndsWith (jsToLower file.name) ".heif" = true) := by
  simp [isHeicFile, Bool.or_eq_true, beq_iff_eq, or_assoc]

/-- C8: the awaited HEIC converter result is returned as is when it is a
single blob, its first element is returned when it is a nonempty array,
and an empty array raises the conversion-failed error. -/
theorem convertHeicToBlob_cases (b : Blob) (bs : List Blob) :
    convertHeicToBlob (HeicConvertResult.single b) = Except.ok b
    ∧ convertHeicToBlob (HeicConvertResult.multiple (b :: bs)) = Except.ok b
    ∧ convertHeicToBlob (HeicConvertResult.multiple [])
        = Except.error "HEIC conversion failed." :=
  ⟨rfl, rfl, rfl⟩

/-- C7: starting from the empty module cache, any positive number of
loadHeicConverter calls triggers exactly one dynamic import: every caller
receives the first-loaded converter and the cache ends holding it with a
load count of one. -/
theorem loadHeicConverter_single_load {α : Type} (importHeic2any : Nat → α) (n : Nat) :
    loadHeicConverterCalls importHeic2any (n + 1) (initialHeicCache α)
      = (List.replicate (n + 1) (importHeic2any 0),
         { heicConverterPromise := some (importHeic2any 0), loads := 1 }) := by
  simp [loadHeicConverterCalls, loadHeicConverter, initialHeicCache,
    loadHeicConverterCalls_cached, List.replicate_succ]

/-- C5: appending prepends the entry (head of the new log) and truncates
to the most recent twenty (maxLogEntries = 20); any nonempty sequence of
appends leaves at most twenty entries whatever the starting log; and
appending twenty-five entries to the empty log leaves exactly the twenty
most recent, most-recent-first, the oldest five evicted. -/
theorem appendLog_bounded (e : ProcessingLogEntry) (l : List ProcessingLogEntry)
    (es l0 : List ProcessingLogEntry) (hes : es ≠ []) :
    appendLogEntry e l = (e :: l).take 20
    ∧ (appendLogEntry e l).head? = some e
    ∧ (es.foldl (fun acc x => appendLogEntry x acc) l0).length ≤ 20
    ∧ es.foldl (fun acc x => appendLogEntry x acc) l0 = (es.reverse ++ l0).take 20
    ∧ (es.length = 25 →
        es.foldl (fun acc x => appendLogEntry x acc) [] = es.reverse.take 20
        ∧ (es.foldl (fun acc x => appendLogEntry x acc) []).length = 20) := by
  obtain ⟨x, es', rfl⟩ := List.exists_cons_of_ne_nil hes
  have hfold := foldl_appendLogEntry es' x
  refine ⟨rfl, ?_, ?_, ?_, ?_⟩
  · simp [appendLogEntry, maxLogEntries]
  · rw [hfold l0, List.length_take]
    exact min_le_left _ _
  · exact hfold l0
  · intro hlen
    constructor
    · rw [hfold [], List.append_nil]
      rfl
    · rw [hfold [], List.append_nil, List.length_take, List.length_reverse]
      simp only [maxLogEntries]
      rw [List.length_cons]
      rw [List.length_cons] at hlen
      omega

/-- Closed check of appendLog_bounded at a concrete 25-entry sequence. -/
theorem appendLog_bounded_witness :
    appendLogEntry (sampleLogEntry 0) [] = (sampleLogEntry 0 :: []).take 20
    ∧ (appendLogEntry (sampleLogEntry 0) []).head? = some (sampleLogEntry 0)
    ∧ (sampleLogEntries.foldl (fun acc x => appendLogEntry x acc) []).length ≤ 20
    ∧ sampleLogEntries.foldl (fun acc x => appendLogEntry x acc) []
        = (sampleLogEntries.reverse ++ []).take 20
    ∧ (sampleLogEntries.length = 25 →
        sampleLogEntries.foldl (fun acc x => appendLogEntry x acc) []
          = sampleLogEntries.reverse.take 20
        ∧ (sampleLogEntries.foldl (fun acc x => appendLogEntry x acc) []).length = 20) :=
  appendLog_bounded (sampleLogEntry 0) [] sampleLogEntries []
    (List.length_pos.mp (by simp [sampleLogEntries]))

/-- C2: issue request A, issue request B before A resolves, let B resolve
first and A resolve last, each with an arbitrary success or failure
outcome.  A's completion is a no-op on the shared state (no report,
preview, status, error or log change), and the state after B's completion
is exactly B's outcome applied — so the displayed state and log reflect
only the latest request. -/
theorem supersession_last_request_wins (s0 : OptimizerState) (fA fB : File)
    (outA outB : Except String OptimizedImages) (envA envB : HookEnv) :
    completeRequest envA fA (issueRequest s0).2 outA
        (completeRequest envB fB (issueRequest (issueRequest s0).1).2 outB
          (issueRequest (issueRequest s0).1).1)
      = completeRequest envB fB (issueRequest (issueRequest s0).1).2 outB
          (issueRequest (issueRequest s0).1).1
    ∧ completeRequest envB fB (issueRequest (issueRequest s0).1).2 outB
        (issueRequest (issueRequest s0).1).1
      = applyOutcome envB fB outB (issueRequest (issueRequest s0).1).1 := by
  have hguardB : ¬ ((issueRequest (issueRequest s0).1).1.requestId
      ≠ (issueRequest (issueRequest s0).1).2) := by
    simp [issueRequest]
  have hB : completeRequest envB fB (issueRequest (issueRequest s0).1).2 outB
      (issueRequest (issueRequest s0).1).1
      = applyOutcome envB fB outB (issueRequest (issueRequest s0).1).1 := by
    rw [completeRequest, if_neg hguardB]
  refine ⟨?_, hB⟩
  rw [hB, completeRequest, if_pos]
  rw [applyOutcome_requestId]
  simp [issueRequest]

/-- C3: an input rejected by the supported-image gate makes the operation
fail with the unsupported-input message before processing begins: the
returned state carries only the error, and the dependency state — through
which every loadImage call is threaded — is returned untouched, so the
decode dependency was never invoked. -/
theorem unsupported_input_no_decode {σ : Type} (deps : ImageProcessorDeps σ)
    (env : HookEnv) (file : File) (s : OptimizerState) (st : σ)
    (h : isSupportedImageFile file = false) :
    handleFileSelection deps env file s st =
      ({ s with errorMessage := some unsupportedFileMessage,
                status := OptimizerStatus.error }, st) := by
  simp [handleFileSelection, h]

/-- Closed check of unsupported_input_no_decode on the call-counting
dependency double: for text/plain note.txt the loadImage counter stays at
zero. -/
theorem unsupported_input_no_decode_witness :
    isSupportedImageFile noteTxt = false ∧
    handleFileSelection countingDeps sampleEnv noteTxt idleState 0 =
      ({ idleState with errorMessage := some unsupportedFileMessage,
                        status := OptimizerStatus.error }, 0) :=
  ⟨by decide,
    unsupported_input_no_decode countingDeps sampleEnv noteTxt idleState 0 (by decide)⟩

/-- C9: a file rejected by the gate changes only the status (to error) and
the error message; the displayed report, preview URLs, log and request
counter are unchanged — in particular the counter is not bumped, so a
still-in-flight valid request is not superseded — and the dependency
state is untouched. -/
theorem unsupported_input_frame {σ : Type} (deps : ImageProcessorDeps σ)
    (env : HookEnv) (file : File) (s : OptimizerState) (st : σ)
    (h : isSupportedImageFile file = false) :
    (handleFileSelection deps env file s st).1.status = OptimizerStatus.error
    ∧ (handleFileSelection deps env file s st).1.errorMessage = some unsupportedFileMessage
    ∧ (handleFileSelection deps env file s st).1.optimized = s.optimized
    ∧ (handleFileSelection deps env file s st).1.previewUrls = s.previewUrls
    ∧ (handleFileSelection deps env file s st).1.logs = s.logs
    ∧ (handleFileSelection deps env file s st).1.requestId = s.requestId
    ∧ (handleFileSelection deps env file s st).2 = st := by
  simp [handleFileSelection, h]

/-- Closed check of unsupported_input_frame at a PDF input. -/
theorem unsupported_input_frame_witness :
    isSupportedImageFile reportPdf = false ∧
    ((handleFileSelection witnessDeps sampleEnv reportPdf idleState ()).1.status
        = OptimizerStatus.error
    ∧ (handleFileSelection witnessDeps sampleEnv reportPdf idleState ()).1.errorMessage
        = some unsupportedFileMessage
    ∧ (handleFileSelection witnessDeps sampleEnv reportPdf idleState ()).1.optimized
        = idleState.optimized
    ∧ (handleFileSelection witnessDeps sampleEnv reportPdf idleState ()).1.previewUrls
        = idleState.previewUrls
    ∧ (handleFileSelection witnessDeps sampleEnv reportPdf idleState ()).1.logs
        = idleState.logs
    ∧ (handleFileSelection witnessDeps sampleEnv reportPdf idleState ()).1.requestId
        = idleState.requestId
    ∧ (handleFileSelection witnessDeps sampleEnv reportPdf idleState ()).2 = ()) :=
  ⟨by decide,
    unsupported_input_frame witnessDeps sampleEnv reportPdf idleState () (by decide)⟩

/-- C1: on a loaded image with positive width W and height H, a positive
target width T and quality q, whenever the canvas context is available
and encoding delivers a blob, renderVariant succeeds with width
min(W, T), height round(H * min(W, T) / W), quality q and size the
encoded blob's length; in particular the returned width never exceeds W
and never exceeds T. -/
theorem renderVariant_dimensions {σ : Type} (image : LoadedImage) (T : Nat) (q : ℚ)
    (deps : ImageProcessorDeps σ) (st st' : σ) (blob : Blob)
    (hW : 0 < image.width) (hH : 0 < image.height) (hT : 0 < T)
    (hctx : deps.contextAvailable = true)
    (henc : deps.toBlob st (clampedWidth image.width T)
        (scaledHeight image.width image.height T) q = (some blob, st')) :
    renderVariant image T q deps st =
      (Except.ok { blob := blob, width := min image.width T,
                   height := scaledHeight image.width image.height T,
                   size := blob.size, quality := q }, st')
    ∧ min image.width T ≤ image.width
    ∧ min image.width T ≤ T
    ∧ ((scaledHeight image.width image.height T : ℕ) : ℤ)
        = round ((image.height : ℚ) * ((min image.width T : ℕ) : ℚ) / (image.width : ℚ)) := by
  have hW0 : ¬ (image.width = 0 ∨ image.height = 0) := by omega
  have henc' : deps.toBlob st (min image.width T)
      (scaledHeight image.width image.height T) q = (some blob, st') := by
    simpa [clampedWidth] using henc
  refine ⟨?_, min_le_left _ _, min_le_right _ _, ?_⟩
  · simp only [renderVariant, hctx, if_neg hW0, if_true, clampedWidth, henc']
  · have hmul : (image.height : ℚ) * scaleFor image.width T
        = (image.height : ℚ) * ((min image.width T : ℕ) : ℚ) / (image.width : ℚ) := by
      rw [scaleFor, clampedWidth, mul_div_assoc]
    have hnonneg : (0 : ℚ)
        ≤ (image.height : ℚ) * ((min image.width T : ℕ) : ℚ) / (image.width : ℚ) := by
      positivity
    have hround : (0 : ℤ)
        ≤ round ((image.height : ℚ) * ((min image.width T : ℕ) : ℚ) / (image.width : ℚ)) := by
      rw [round_eq]
      refine Int.le_floor.mpr ?_
      rw [Int.cast_zero]
      linarith
    simp only [scaledHeight, hmul]
    exact Int.toNat_of_nonneg hround

/-- Closed check of renderVariant_dimensions at the test suite's concrete
scenario: a 4000 x 2000 raster at desktop target 1920, quality 0.8,
yielding width 1920, height 960 and the encoded 5120-byte blob. -/
theorem renderVariant_dimensions_witness :
    (0 : Nat) < 4000 ∧ (0 : Nat) < 2000 ∧ (0 : Nat) < 1920
    ∧ scaledHeight 4000 2000 1920 = 960
    ∧ (renderVariant { width := 4000, height := 2000 } 1920 (4 / 5) witnessDeps () =
        (Except.ok { blob := { size := 5120, mediaType := "image/webp" },
                     width := min 4000 1920,
                     height := scaledHeight 4000 2000 1920,
                     size := 5120, quality := 4 / 5 }, ())
      ∧ min 4000 1920 ≤ 4000
      ∧ min 4000 1920 ≤ 1920
      ∧ ((scaledHeight 4000 2000 1920 : ℕ) : ℤ)
          = round ((2000 : ℚ) * ((min 4000 1920 : ℕ) : ℚ) / (4000 : ℚ))) :=
  ⟨by decide, by decide, by decide,
    by
      have hmin : clampedWidth 4000 1920 = 1920 := by decide
      rw [scaledHeight, scaleFor, hmin]
      norm_num [round_eq]
      decide,
    renderVariant_dimensions { width := 4000, height := 2000 } 1920 (4 / 5)
      witnessDeps () () { size := 5120, mediaType := "image/webp" }
      (by decide) (by decide) (by decide) rfl rfl⟩

/-- C6: the claim states that parseable non-array persisted content loads
as the empty log; the logs initializer of App.tsx (one of the two initial
log loads) returns any successfully parsed value unchecked, so the
persisted string 42 loads as the JSON number 42, which is not the empty
array: the claim as stated is false of App.tsx. -/
theorem appLogsInit_nonarray_counterexample :
    appLogsInit (fun _ => some (Json.num 42)) (some "42") = Json.num 42
    ∧ Json.num 42 ≠ Json.arr [] := by
  refine ⟨rfl, ?_⟩
  intro h
  exact Json.noConfusion h

/-- C6 (amended): in the hook's parseStoredLogs, absent values, parse
failures and parseable non-array content all load as the empty log and a
well-formed persisted array reloads as the same entries in the same
order; App.tsx's inline initializer, however, only maps absence and parse
failures to the empty log and returns any parseable content — array or
not — unchanged. -/
theorem storedLogs_load_behavior (parse : String → Option Json) (s : String)
    (j : Json) (elems : List Json)
    (hall : elems.all isValidLogEntry = true) :
    parseStoredLogs parse none = []
    ∧ (parse s = none → parseStoredLogs parse (some s) = [])
    ∧ (s.isEmpty = false → parse s = some (Json.arr elems) →
        parseStoredLogs parse (some s) = elems)
    ∧ (parse s = some j → j.isArray = false → parseStoredLogs parse (some s) = [])
    ∧ appLogsInit parse none = Json.arr []
    ∧ (parse s = none → appLogsInit parse (some s) = Json.arr [])
    ∧ (s.isEmpty = false → parse s = some j → appLogsInit parse (some s) = j) := by
  refine ⟨rfl, ?_, ?_, ?_, rfl, ?_, ?_⟩
  · intro hp
    cases hs : s.isEmpty <;> simp [parseStoredLogs, hs, hp]
  · intro hs hp
    simp only [parseStoredLogs, hs, hp, Bool.false_eq_true, if_false]
    exact List.filter_eq_self.mpr (fun a ha => List.all_eq_true.mp hall a ha)
  · intro hp hj
    cases hs : s.isEmpty
    · cases j with
      | arr elems2 => simp [Json.isArray] at hj
      | null => simp [parseStoredLogs, hs, hp]
      | bool b => simp [parseStoredLogs, hs, hp]
      | num q2 => simp [parseStoredLogs, hs, hp]
      | str s2 => simp [parseStoredLogs, hs, hp]
      | obj fields => simp [parseStoredLogs, hs, hp]
    · simp [parseStoredLogs, hs]
  · intro hp
    cases hs : s.isEmpty <;> simp [appLogsInit, hs, hp]
  · intro hs hp
    simp [appLogsInit, hs, hp]

/-- Closed check of storedLogs_load_behavior at a concrete parse function
and a concrete one-entry persisted array. -/
theorem storedLogs_load_behavior_witness :
    [sampleEntryJson].all isValidLogEntry = true
    ∧ (parseStoredLogs sampleParse none = []
    ∧ (sampleParse "[entry]" = none → parseStoredLogs sampleParse (some "[entry]") = [])
    ∧ ("[entry]".isEmpty = false →
        sampleParse "[entry]" = some (Json.arr [sampleEntryJson]) →
        parseStoredLogs sampleParse (some "[entry]") = [sampleEntryJson])
    ∧ (sampleParse "[entry]" = some (Json.arr [sampleEntryJson]) →
        (Json.arr [sampleEntryJson]).isArray = false →
        parseStoredLogs sampleParse (some "[entry]") = [])
    ∧ appLogsInit sampleParse none = Json.arr []
    ∧ (sampleParse "[entry]" = none → appLogsInit sampleParse (some "[entry]") = Json.arr [])
    ∧ ("[entry]".isEmpty = false →
        sampleParse "[entry]" = some (Json.arr [sampleEntryJson]) →
        appLogsInit sampleParse (some "[entry]") = Json.arr [sampleEntryJson])) :=
  ⟨by decide,
    storedLogs_load_behavior sampleParse "[entry]" (Json.arr [sampleEntryJson])
      [sampleEntryJson] (by decide)⟩

/-- C10: the concurrent pipeline (both variants rendered via Promise.all)
and the sequential pipeline (desktop awaited, then mobile) agree for
every file, options and deterministic dependency state: same desktop
variant, same mobile variant, same original metadata on success, and the
same failure message on failure, the measured durationMs aside. -/
theorem processImage_concurrent_sequential_equiv {σ : Type} (file : File)
    (options : Option ImageProcessingOverrides) (deps : ImageProcessorDeps σ)
    (s0 : σ) :
    reportsMatch (processImage file options deps s0).1
      (processImageSeq file options deps s0).1 := by
  unfold processImage processImageSeq
  rcases hL : deps.loadImage s0 file with ⟨r1, s1⟩
  cases r1 with
  | error e => simp [hL, reportsMatch]
  | ok image =>
    rcases hD : renderVariant image (mergeOptions options).desktop.width
        (mergeOptions options).desktop.quality deps s1 with ⟨dres, s2⟩
    cases dres with
    | error e =>
      rcases hM : renderVariant image (mergeOptions options).mobile.width
          (mergeOptions options).mobile.quality deps s2 with ⟨mres, s3⟩
      cases mres <;> simp [hL, hD, hM, reportsMatch]
    | ok d =>
      rcases hM : renderVariant image (mergeOptions options).mobile.width
          (mergeOptions options).mobile.quality deps s2 with ⟨mres, s3⟩
      cases mres <;> simp [hL, hD, hM, reportsMatch]
